import Mathlib

/-!
Shallow embedding of `src/rsa/dsm.py` (mne-rsa): dissimilarity-matrix (DSM)
computation with searchlight generators.  Machine floats are modelled by exact
rationals; numpy arrays by nested lists (axis 0 outermost); Python exceptions
by an `Except PyError` result.  All definitions are translated from the source
file, except where a doc comment says `Modelled from the spec:`.
-/

/-- Python exceptions relevant to this module. -/
inductive PyError
  | valueError (msg : String)
  | typeError (msg : String)
  | stopIteration
  deriving DecidableEq, Repr

/-- The `sqeuclidean` metric of `scipy.spatial.distance`: sum of squared
coordinate differences. -/
def sqeuclidean (u v : List ℚ) : ℚ :=
  (List.zipWith (fun a b => (a - b) ^ 2) u v).sum

/-- `scipy.spatial.distance.pdist`: condensed distance vector, entries
`d x_i x_j` for `i < j` in row-major (upper-triangle) order. -/
def pdist (d : List ℚ → List ℚ → ℚ) : List (List ℚ) → List ℚ
  | [] => []
  | x :: rest => rest.map (d x) ++ pdist d rest

/-- `distance.cdist(xs, ys, metric)[np.triu_indices_from(dist, 1)]`: the strict
upper triangle (`i < j`, row-major) of the cross-distance matrix between `xs`
and `ys`. -/
def cdistUpper (d : List ℚ → List ℚ → ℚ) : List (List ℚ) → List (List ℚ) → List ℚ
  | [], _ => []
  | _ :: _, [] => []
  | x :: xs, _ :: ys => ys.map (d x) ++ cdistUpper d xs ys

/-- `X.shape[1]` after `X = np.reshape(data, (len(data), -1))`: the flattened
feature dimensionality (rows of a rectangular numpy array all share it). -/
def n_features (X : List (List ℚ)) : ℕ := (X.headD []).length

/-- The error message of the single-feature check in `compute_dsm` and
`compute_dsm_cv` (the source misspells "correlataion"; kept verbatim). -/
def singleFeatureMsg : String :=
  "There is only a single feature, so \x27correlataion\x27 and \x27cosine\x27 can not be used as DSM metric. Consider using \x27sqeuclidean\x27 instead."

/-- `compute_dsm(data, metric, **kwargs)` from `src/rsa/dsm.py`.  `data` is the
item array already flattened to items x features (the `np.reshape` step);
`d` is the pairwise distance function that `metric` plus `**kwargs` select in
`scipy.spatial.distance.pdist`. -/
def compute_dsm (data : List (List ℚ)) (metric : String)
    (d : List ℚ → List ℚ → ℚ) : Except PyError (List ℚ) :=
  if n_features data = 1 ∧ (metric = "correlation" ∨ metric = "cosine") then
    .error (.valueError singleFeatureMsg)
  else
    .ok (pdist d data)

/-- Elementwise sum of two 2-D arrays (numpy `+` on equal shapes). -/
def matAdd (A B : List (List ℚ)) : List (List ℚ) :=
  List.zipWith (List.zipWith (· + ·)) A B

/-- Elementwise sum of the fold slices of a 3-D array (the summation step of
numpy `X.mean(axis=0)`). -/
def sumFolds : List (List (List ℚ)) → List (List ℚ)
  | [] => []
  | A :: rest => rest.foldl matAdd A

/-- `X.mean(axis=0)` for a 3-D array `X` (folds x items x features): sum the
fold slices elementwise and divide by the number of folds. -/
def meanFolds (X : List (List (List ℚ))) : List (List ℚ) :=
  (sumFolds X).map (fun row => row.map (· / (X.length : ℚ)))

/-- `X_train = X_mean - (X_mean - X_test) / (n_folds - 1)` from
`compute_dsm_cv`, elementwise over items and features. -/
def trainEstimate (m t : List (List ℚ)) (F : ℕ) : List (List ℚ) :=
  List.zipWith (fun mr tr =>
    List.zipWith (fun mi ti => mi - (mi - ti) / ((F : ℚ) - 1)) mr tr) m t

/-- Elementwise sum of two 1-D arrays (numpy `+=` on the condensed vector). -/
def addVec (u v : List ℚ) : List ℚ := List.zipWith (· + ·) u v

/-- `compute_dsm_cv(folds, metric, **kwargs)` from `src/rsa/dsm.py`.  `folds`
is the fold tensor already flattened to folds x items x features. -/
def compute_dsm_cv (folds : List (List (List ℚ))) (metric : String)
    (d : List ℚ → List ℚ → ℚ) : Except PyError (List ℚ) :=
  let X := folds
  let n_folds := X.length
  let n_items := (X.headD []).length
  if n_features (X.headD []) = 1 ∧ (metric = "correlation" ∨ metric = "cosine") then
    .error (.valueError singleFeatureMsg)
  else
    let X_mean := meanFolds X
    let dsm0 := List.replicate (n_items * (n_items - 1) / 2) (0 : ℚ)
    let dsm := (List.range n_folds).foldl (fun acc k =>
      let X_test := X.getD k []
      let X_train := trainEstimate X_mean X_test n_folds
      addVec acc (cdistUpper d X_train X_test)) dsm0
    .ok (dsm.map (· / (n_folds : ℚ)))

/-- The per-item, per-feature average of all folds excluding fold `k` (the
leave-one-out mean), stated from the spec wording of the cross-validated
train estimate; used to compare against the source formula `trainEstimate`. -/
def looMean (X : List (List (List ℚ))) (k : ℕ) : List (List ℚ) :=
  meanFolds (X.eraseIdx k)

/-- Concrete fold tensor (2 folds, 1 item, 1 feature) exhibiting the
cross-validation train-estimate sign slip. -/
def cvBugFolds : List (List (List ℚ)) := [[[0]], [[2]]]

/-- A value passed to `_ensure_condensed`: a 1-D condensed vector, a 2-D
matrix, a Python list of such values, or an array whose rank is neither 1
nor 2 (constructor `other`, carrying the rank). -/
inductive DsmInput
  | one (v : List ℚ)
  | two (m : List (List ℚ))
  | lst (ds : List DsmInput)
  | other (ndim : ℕ)
  deriving Repr

/-- Result of `_ensure_condensed`: a condensed vector or a list of results. -/
inductive CondOut
  | one (v : List ℚ)
  | lst (l : List CondOut)
  deriving Repr

/-- Strict upper triangle (row-major, diagonal excluded) of a square matrix:
the condensed form produced by `scipy.spatial.distance.squareform`. -/
def triuStrict : List (List ℚ) → ℕ → List ℚ
  | [], _ => []
  | row :: rest, k => row.drop (k + 1) ++ triuStrict rest (k + 1)

/-- Message of the non-square branch of `_ensure_condensed` (note the source
never interpolates `var_name` into the `%s` placeholder). -/
def invalidDimsMsg : String :=
  "Invalid dimensions for \"%s\". The DSM should either be a square matrix, or a one dimensional array when in condensed form."

/-- Message of the wrong-rank branch of `_ensure_condensed` (again with the
literal, uninterpolated `%s`). -/
def invalidNdimMsg : String :=
  "Invalid number of dimensions for \"%s\". The DSM should either be a square matrix, or a one dimensional array when in condensed form."

mutual

/-- `_ensure_condensed(dsm, var_name)` from `src/rsa/dsm.py`: recurses into
Python lists, converts a square 2-D DSM to condensed form, passes 1-D input
through, and raises `ValueError` otherwise.  Both raise sites build the
message from a plain string literal containing `%s`; `var_name` is unused. -/
def ensure_condensed (dsm : DsmInput) (var_name : String) : Except PyError CondOut :=
  match dsm with
  | .lst ds => (ensure_condensed_list ds var_name).map CondOut.lst
  | .two m =>
    if m.length ≠ (m.headD []).length then
      .error (.valueError invalidDimsMsg)
    else
      .ok (.one (triuStrict m 0))
  | .one v => .ok (.one v)
  | .other _ => .error (.valueError invalidNdimMsg)

/-- List-comprehension branch of `_ensure_condensed`. -/
def ensure_condensed_list (ds : List DsmInput) (var_name : String) :
    Except PyError (List CondOut) :=
  match ds with
  | [] => .ok []
  | x :: rest =>
    match ensure_condensed x var_name with
    | .error e => .error e
    | .ok c =>
      match ensure_condensed_list rest var_name with
      | .error e => .error e
      | .ok cs => .ok (c :: cs)

end

/-- Python `list(range(a, b))` over the integers. -/
def pyRange (a b : ℤ) : List ℤ :=
  (List.range (b - a).toNat).map (fun (i : ℕ) => a + (i : ℤ))

/-- `_get_time_patch_centers(n_samples, temporal_radius)` from
`src/rsa/dsm.py`: `list(range(temporal_radius, n_samples - temporal_radius + 1))`. -/
def get_time_patch_centers (n_samples temporal_radius : ℤ) : List ℤ :=
  pyRange temporal_radius (n_samples - temporal_radius + 1)

/-- `np.flatnonzero(row < radius)`: the indices of the entries of `row` that
are strictly below `radius`, ascending. -/
def flatnonzero_lt (row : List ℚ) (radius : ℚ) : List ℕ :=
  (List.range row.length).filter (fun i => row.getD i 0 < radius)

/-- The spatial searchlight neighborhood of series `s`:
`np.flatnonzero(dist[s] < spatial_radius)`, shared by `dsm_spat` and
`dsm_spattemp`. -/
def neighborhood (dist : List (List ℚ)) (s : ℕ) (radius : ℚ) : List ℕ :=
  flatnonzero_lt (dist.getD s []) radius

/-- Python slice `l[a:b]` for a 1-D array (the searchlight time window). -/
def pySlice (a b : ℤ) (l : List ℚ) : List ℚ :=
  (l.take b.toNat).drop a.toNat

/-- Modelled from the spec: `_create_folds` (in `rsa/folds.py`, outside this
excerpt) at its default `n_folds = 1` path "trivially folds=1 wrapping the
original data", i.e. it returns a 1 x items x ... tensor around `data`. -/
def create_folds (data : List α) : List (List α) := [data]

/-- Flatten a fold slice (items x series x features) into the rows that
`np.reshape(patch, (len(patch), -1))` produces inside `compute_dsm`: one
row per entry of the patch's first axis, in C order. -/
def flat3 (x : List (List (List ℚ))) : List ℚ :=
  x.flatMap (fun item => item.flatMap id)

/-- Rows of a 4-D searchlight patch as seen by `compute_dsm`: the first axis
(folds) indexes the rows; everything else is flattened. -/
def patchRows (p : List (List (List (List ℚ)))) : List (List ℚ) :=
  p.map flat3

/-- The message CPython raises for `f(**None)`. -/
def kwargsNoneMsg : String := "argument after ** must be a mapping, not NoneType"

/-- One searchlight step `dsm_func(patch, dist_metric, **dist_params)`: the
`**` expansion of a `None` options map raises `TypeError` before the call is
made; otherwise the selected DSM computer runs. -/
def patchStep (dist_params : Option Unit) (compute : Except PyError (List ℚ)) :
    Except PyError (List ℚ) :=
  match dist_params with
  | none => .error (.typeError kwargsNoneMsg)
  | some _ => compute

/-- Consume a generator of per-patch results: stop at the first raised
exception, otherwise collect every yielded DSM in order. -/
def runSeq : List (Except PyError α) → Except PyError (List α)
  | [] => .ok []
  | x :: xs =>
    match x with
    | .error e => .error e
    | .ok v =>
      match runSeq xs with
      | .error e => .error e
      | .ok vs => .ok (v :: vs)

/-- The patch of `dsm_spat` for center series `s`:
`folds[:, :, np.flatnonzero(series_dist < spatial_radius)]`. -/
def spatPatch (folds : List (List (List (List ℚ)))) (dist : List (List ℚ))
    (radius : ℚ) (s : ℕ) : List (List (List (List ℚ))) :=
  folds.map (fun fold => fold.map (fun item =>
    (neighborhood dist s radius).map (fun t => item.getD t [])))

/-- `dsm_spat(data, dist, spatial_radius, dist_metric, dist_params, ...)` from
`src/rsa/dsm.py` at its default `n_folds = 1` path, run to exhaustion: for
each series (row of `dist`, in order) it slices the fold tensor to the
spatial neighborhood and yields `compute_dsm` on the patch.  `data` is
items x series x features. -/
def dsm_spat_run (data : List (List (List ℚ))) (dist : List (List ℚ))
    (spatial_radius : ℚ) (metric : String) (d : List ℚ → List ℚ → ℚ)
    (dist_params : Option Unit) : Except PyError (List (List ℚ)) :=
  let folds := create_folds data
  runSeq ((List.range dist.length).map (fun s =>
    patchStep dist_params
      (compute_dsm (patchRows (spatPatch folds dist spatial_radius s)) metric d)))

/-- `dsm_temp(data, temporal_radius, dist_metric, dist_params, ...)` from
`src/rsa/dsm.py` at its default `n_folds = 1` path, run to exhaustion: for
each valid temporal center it slices the last axis to
`[center - temporal_radius, center + temporal_radius)` and yields
`compute_dsm` on the patch.  `data` is items x rows x times. -/
def dsm_temp_run (data : List (List (List ℚ))) (temporal_radius : ℤ)
    (metric : String) (d : List ℚ → List ℚ → ℚ) (dist_params : Option Unit) :
    Except PyError (List (List ℚ)) :=
  let n_samples : ℤ := (((data.headD []).headD []).length : ℤ)
  let centers := get_time_patch_centers n_samples temporal_radius
  let folds := create_folds data
  runSeq (centers.map (fun c =>
    patchStep dist_params
      (compute_dsm (patchRows (folds.map (fun fold => fold.map (fun item =>
        item.map (pySlice (c - temporal_radius) (c + temporal_radius)))))) metric d)))

/-- The (series, center) enumeration of `dsm_spattemp`: outer loop over
series, inner loop over temporal centers. -/
def spattemp_pairs (n_series : ℕ) (centers : List ℤ) : List (ℕ × ℤ) :=
  (List.range n_series).flatMap (fun s => centers.map (fun c => (s, c)))

/-- The patch of `dsm_spattemp` for series `s` and center `c`:
`folds[:, :, np.flatnonzero(dist[series] < spatial_radius), ..., c-r:c+r]`. -/
def spattempPatch (folds : List (List (List (List ℚ)))) (dist : List (List ℚ))
    (spatial_radius : ℚ) (temporal_radius : ℤ) (s : ℕ) (c : ℤ) :
    List (List (List (List ℚ))) :=
  folds.map (fun fold => fold.map (fun item =>
    (neighborhood dist s spatial_radius).map (fun t =>
      pySlice (c - temporal_radius) (c + temporal_radius) (item.getD t []))))

/-- `dsm_spattemp(data, dist, spatial_radius, temporal_radius, ...)` from
`src/rsa/dsm.py` at its default `n_folds = 1` path.  All (series, center)
patches are enumerated series-major / time-minor and handed to the parallel
pool, but the function body ends with `yield next(dsm_gen)`: only the first
computed DSM is ever yielded (empty patch sets leave `next` with nothing to
return).  `data` is items x series x times. -/
def dsm_spattemp_run (data : List (List (List ℚ))) (dist : List (List ℚ))
    (spatial_radius : ℚ) (temporal_radius : ℤ) (metric : String)
    (d : List ℚ → List ℚ → ℚ) (dist_params : Option Unit) :
    Except PyError (List (List ℚ)) :=
  let n_series := (data.headD []).length
  let n_samples : ℤ := (((data.headD []).headD []).length : ℤ)
  let folds := create_folds data
  let centers := get_time_patch_centers n_samples temporal_radius
  let results := runSeq ((spattemp_pairs n_series centers).map (fun sc =>
    patchStep dist_params
      (compute_dsm
        (patchRows (spattempPatch folds dist spatial_radius temporal_radius sc.1 sc.2))
        metric d)))
  match results with
  | .error e => .error e
  | .ok [] => .error .stopIteration
  | .ok (x :: _) => .ok [x]

/-- A numpy buffer living on the heap: a 1-D, 2-D, 3-D or 4-D array. -/
inductive Val
  | a1 (x : List ℚ)
  | a2 (x : List (List ℚ))
  | a3 (x : List (List (List ℚ)))
  | a4 (x : List (List (List (List ℚ))))
  deriving Repr

/-- The heap of allocated numpy buffers; a buffer id is an index into the
list, and allocation appends. -/
abbrev Heap := List Val

/-- Read a heap value as a 1-D array. -/
def getA1 : Val → List ℚ
  | .a1 x => x
  | _ => []

/-- Read a heap value as a 2-D array. -/
def getA2 : Val → List (List ℚ)
  | .a2 x => x
  | _ => []

/-- Read a heap value as a 3-D array. -/
def getA3 : Val → List (List (List ℚ))
  | .a3 x => x
  | _ => []

/-- `compute_dsm` as a heap program: it reads the item array (`np.reshape`
returns a view, `pdist` allocates its result, which is returned as a value);
no statement of the source writes to an existing buffer, so the heap is
returned untouched. -/
def compute_dsm_heap (h : Heap) (dataId : ℕ) (metric : String)
    (d : List ℚ → List ℚ → ℚ) : Heap × Except PyError (List ℚ) :=
  (h, compute_dsm (getA2 (h.getD dataId (.a1 []))) metric d)

/-- `compute_dsm_cv` as a heap program.  `dsm = np.zeros(...)` allocates a
fresh buffer; `X_mean`, `X_train` and the `cdist` result are freshly
allocated temporaries (held as values here); the only in-place statement of
the source, `dsm += dist[np.triu_indices_from(dist, 1)]`, stores into the
freshly allocated `dsm` buffer on every loop iteration. -/
def compute_dsm_cv_heap (h : Heap) (foldsId : ℕ) (metric : String)
    (d : List ℚ → List ℚ → ℚ) : Heap × Except PyError (List ℚ) :=
  let X := getA3 (h.getD foldsId (.a1 []))
  let n_folds := X.length
  let n_items := (X.headD []).length
  if n_features (X.headD []) = 1 ∧ (metric = "correlation" ∨ metric = "cosine") then
    (h, .error (.valueError singleFeatureMsg))
  else
    let dsmId := h.length
    let h1 := h ++ [Val.a1 (List.replicate (n_items * (n_items - 1) / 2) (0 : ℚ))]
    let X_mean := meanFolds X
    let h2 := (List.range n_folds).foldl (fun hh k =>
      let X_test := X.getD k []
      let X_train := trainEstimate X_mean X_test n_folds
      hh.set dsmId
        (Val.a1 (addVec (getA1 (hh.getD dsmId (.a1 []))) (cdistUpper d X_train X_test)))) h1
    (h2, .ok ((getA1 (h2.getD dsmId (.a1 []))).map (· / (n_folds : ℚ))))

/-- `dsm_spat` as a heap program (default `n_folds = 1` path, sequence fully
consumed): `_create_folds` allocates the fold tensor, each loop iteration
allocates a fancy-indexed patch copy, and no statement writes to an existing
buffer, so the net heap effect is pure allocation. -/
def dsm_spat_heap (h : Heap) (dataId distId : ℕ) (spatial_radius : ℚ)
    (metric : String) (d : List ℚ → List ℚ → ℚ) (dist_params : Option Unit) :
    Heap × Except PyError (List (List ℚ)) :=
  let data := getA3 (h.getD dataId (.a1 []))
  let dist := getA2 (h.getD distId (.a1 []))
  let folds := create_folds data
  let patches := (List.range dist.length).map (fun s => spatPatch folds dist spatial_radius s)
  (h ++ [Val.a4 folds] ++ patches.map Val.a4,
   runSeq (patches.map (fun p => patchStep dist_params (compute_dsm (patchRows p) metric d))))

/-- `dsm_temp` as a heap program (default `n_folds = 1` path, sequence fully
consumed): allocation only, as in `dsm_spat_heap`. -/
def dsm_temp_heap (h : Heap) (dataId : ℕ) (temporal_radius : ℤ)
    (metric : String) (d : List ℚ → List ℚ → ℚ) (dist_params : Option Unit) :
    Heap × Except PyError (List (List ℚ)) :=
  let data := getA3 (h.getD dataId (.a1 []))
  let n_samples : ℤ := (((data.headD []).headD []).length : ℤ)
  let centers := get_time_patch_centers n_samples temporal_radius
  let folds := create_folds data
  let patches := centers.map (fun c =>
    folds.map (fun fold => fold.map (fun item =>
      item.map (pySlice (c - temporal_radius) (c + temporal_radius)))))
  (h ++ [Val.a4 folds] ++ patches.map Val.a4,
   runSeq (patches.map (fun p => patchStep dist_params (compute_dsm (patchRows p) metric d))))

/-- `dsm_spattemp` as a heap program (default `n_folds = 1` path): allocation
only; the truncated `yield next(dsm_gen)` result is returned alongside. -/
def dsm_spattemp_heap (h : Heap) (dataId distId : ℕ) (spatial_radius : ℚ)
    (temporal_radius : ℤ) (metric : String) (d : List ℚ → List ℚ → ℚ)
    (dist_params : Option Unit) : Heap × Except PyError (List (List ℚ)) :=
  let data := getA3 (h.getD dataId (.a1 []))
  let dist := getA2 (h.getD distId (.a1 []))
  let n_series := (data.headD []).length
  let n_samples : ℤ := (((data.headD []).headD []).length : ℤ)
  let folds := create_folds data
  let centers := get_time_patch_centers n_samples temporal_radius
  let patches := (spattemp_pairs n_series centers).map (fun sc =>
    spattempPatch folds dist spatial_radius temporal_radius sc.1 sc.2)
  let results := runSeq (patches.map (fun p =>
    patchStep dist_params (compute_dsm (patchRows p) metric d)))
  (h ++ [Val.a4 folds] ++ patches.map Val.a4,
   match results with
   | .error e => .error e
   | .ok [] => .error .stopIteration
   | .ok (x :: _) => .ok [x])

/-- Whether an `Except` result is a raised `TypeError`. -/
def isTypeErr : Except PyError α → Bool
  | .error (.typeError _) => true
  | _ => false

/-- Whether an `Except` result succeeded. -/
def isOkE : Except PyError α → Bool
  | .ok _ => true
  | _ => false

/-- Whether `pre` is a prefix of `s`. -/
def listPrefixOf [DecidableEq α] : List α → List α → Bool
  | [], _ => true
  | _ :: _, [] => false
  | a :: as, b :: bs => a = b && listPrefixOf as bs

/-- Whether `sub` occurs contiguously inside `s`. -/
def containsSub [DecidableEq α] : List α → List α → Bool
  | s, sub =>
    match s with
    | [] => listPrefixOf sub []
    | c :: rest => listPrefixOf sub (c :: rest) || containsSub rest sub

/-- Concrete spatio-temporal input: 2 items, 2 series, 4 time samples. -/
def stData : List (List (List ℚ)) :=
  [[[1, 2, 3, 4], [5, 6, 7, 8]], [[0, 1, 0, 1], [2, 2, 2, 2]]]

/-- Concrete 2 x 2 spatial distance matrix for `stData`. -/
def stDist : List (List ℚ) := [[0, 1], [1, 0]]

theorem mem_pyRange {a b c : ℤ} : c ∈ pyRange a b ↔ a ≤ c ∧ c < b := by
  unfold pyRange
  rw [List.mem_map]
  constructor
  · rintro ⟨i, hi, rfl⟩
    rw [List.mem_range] at hi
    omega
  · rintro ⟨h1, h2⟩
    refine ⟨(c - a).toNat, ?_, ?_⟩
    · rw [List.mem_range]
      omega
    · omega

theorem pairwise_pyRange (a b : ℤ) : (pyRange a b).Pairwise (· < ·) :=
  List.Pairwise.map _ (fun i j hij => by omega) (List.pairwise_lt_range _)

/-- C1: in `compute_dsm_cv`, the train estimate `mean - (mean - test_k)/(F - 1)`
is claimed to equal the leave-one-out mean of the remaining folds.  On the
fold tensor `[[[0]], [[2]]]` (2 folds, 1 item, 1 feature) with test fold 0,
the source formula returns the test fold itself (`[[0]]`), while the
leave-one-out mean of the other fold is `[[2]]`: the code contradicts its own
docstring ("the average of all-but-one training folds"); the correct closed
form is `mean + (mean - test_k)/(F - 1)`. -/
theorem trainEstimate_is_not_loo_mean :
    trainEstimate (meanFolds cvBugFolds) (cvBugFolds.getD 0 []) 2 = [[(0 : ℚ)]]
    ∧ looMean cvBugFolds 0 = [[(2 : ℚ)]]
    ∧ trainEstimate (meanFolds cvBugFolds) (cvBugFolds.getD 0 []) 2 ≠ looMean cvBugFolds 0 := by
  have h1 : trainEstimate (meanFolds cvBugFolds) (cvBugFolds.getD 0 []) 2 = [[(0 : ℚ)]] := by
    norm_num [trainEstimate, meanFolds, sumFolds, matAdd, cvBugFolds]
  have h2 : looMean cvBugFolds 0 = [[(2 : ℚ)]] := by
    norm_num [looMean, meanFolds, sumFolds, matAdd, cvBugFolds, List.eraseIdx]
  refine ⟨h1, h2, ?_⟩
  rw [h1, h2]
  norm_num

/-- C4 counterexample: the claim says `n_samples = 10, temporal_radius = 5`
yields an empty center list, but `_get_time_patch_centers` returns
`range(5, 10 - 5 + 1) = [5]`. -/
theorem time_patch_centers_ten_five_nonempty : get_time_patch_centers 10 5 ≠ [] := by
  decide

/-- C4 (amended): the temporal patch center sequence is empty exactly when
`2 * temporal_radius > n_samples`; at the boundary `2 * temporal_radius =
n_samples` there is a single center, so `n_samples = 10, temporal_radius = 5`
yields `[5]`, not the empty list. -/
theorem time_patch_centers_empty_iff (n r : ℤ) :
    (get_time_patch_centers n r = [] ↔ n < 2 * r)
    ∧ (n = 2 * r → get_time_patch_centers n r = [r])
    ∧ get_time_patch_centers 10 5 = [5] := by
  refine ⟨?_, ?_, by decide⟩
  · unfold get_time_patch_centers pyRange
    rw [List.map_eq_nil_iff, List.range_eq_nil]
    omega
  · intro h
    subst h
    unfold get_time_patch_centers pyRange
    have h1 : (2 * r - r + 1 - r).toNat = 1 := by omega
    rw [h1, show List.range 1 = [0] from rfl, List.map_cons, List.map_nil]
    norm_num

/-- C4 witness: the amended statement instantiated at `n_samples = 10`,
`temporal_radius = 5`. -/
theorem time_patch_centers_empty_iff_witness :
    (10 : ℤ) = 2 * 5 ∧ get_time_patch_centers 10 5 = [5] :=
  ⟨by decide, (time_patch_centers_empty_iff 10 5).2.1 (by decide)⟩

/-- C8: for `2 * temporal_radius < n_samples`, the center sequence of
`_get_time_patch_centers` is exactly the ascending run of integers from
`temporal_radius` to `n_samples - temporal_radius` inclusive (characterised
by its membership predicate plus strict ascending order); in particular
`n_samples = 10, temporal_radius = 2` gives the 7 centers `[2,...,8]`. -/
theorem time_patch_centers_range (n r : ℤ) (_h : 2 * r < n) :
    (∀ c : ℤ, c ∈ get_time_patch_centers n r ↔ r ≤ c ∧ c ≤ n - r)
    ∧ (get_time_patch_centers n r).Pairwise (· < ·)
    ∧ get_time_patch_centers 10 2 = [2, 3, 4, 5, 6, 7, 8]
    ∧ (get_time_patch_centers 10 2).length = 7 := by
  refine ⟨fun c => ?_, pairwise_pyRange _ _, by decide, by decide⟩
  rw [get_time_patch_centers, mem_pyRange]
  omega

/-- C8 witness: instantiation at `n_samples = 10`, `temporal_radius = 2`,
center `5`. -/
theorem time_patch_centers_range_witness :
    2 * (2 : ℤ) < 10 ∧ (5 : ℤ) ∈ get_time_patch_centers 10 2 :=
  ⟨by decide, ((time_patch_centers_range 10 2 (by decide)).1 5).mpr (by decide)⟩

/-- C9: when `_ensure_condensed` rejects a non-square 2-D input or an input
of rank other than 1 or 2, the `ValueError` message contains the literal,
never-interpolated `%s` placeholder and does not contain the supplied
variable name (here `model_dsm`): the source builds both messages from a
plain string literal and never applies `% var_name`, contradicting the
evident intent of the `var_name` parameter and the `%s` placeholder. -/
theorem ensure_condensed_message_unnamed :
    ensure_condensed (.two [[0, 1, 2], [3, 4, 5]]) "model_dsm"
      = .error (.valueError invalidDimsMsg)
    ∧ ensure_condensed (.other 3) "model_dsm" = .error (.valueError invalidNdimMsg)
    ∧ containsSub invalidDimsMsg.toList "%s".toList = true
    ∧ containsSub invalidDimsMsg.toList "model_dsm".toList = false
    ∧ containsSub invalidNdimMsg.toList "%s".toList = true
    ∧ containsSub invalidNdimMsg.toList "model_dsm".toList = false := by
  refine ⟨rfl, rfl, by decide, by decide, by decide, by decide⟩

/-- C5 counterexample: with the non-negative radius `0` and the 1-series
distance matrix `[[0]]` (zero diagonal), the neighborhood of series 0 is
empty, so the center series is not a member of its own neighborhood; the
strict `<` comparison excludes it. -/
theorem neighborhood_zero_radius_empty :
    (0 : ℚ) ≤ 0 ∧ ¬ (0 ∈ neighborhood [[(0 : ℚ)]] 0 0) := by
  refine ⟨le_refl 0, by decide⟩

/-- C5 (amended): in `dsm_spat` and `dsm_spattemp` the spatial neighborhood
of center series `s` consists of exactly those series whose distance to `s`
is strictly less than `spatial_radius`; the center itself is a member
whenever `spatial_radius` is strictly positive (given the zero self-distance
of the distance matrix), while at `spatial_radius = 0` the neighborhood is
empty. -/
theorem neighborhood_members (dist : List (List ℚ)) (s : ℕ) (radius : ℚ)
    (hdiag : (dist.getD s []).getD s 0 = 0)
    (hlen : s < (dist.getD s []).length) (hpos : 0 < radius) :
    (∀ t, t ∈ neighborhood dist s radius ↔
      t < (dist.getD s []).length ∧ (dist.getD s []).getD t 0 < radius)
    ∧ s ∈ neighborhood dist s radius := by
  have hmem : ∀ t, t ∈ neighborhood dist s radius ↔
      t < (dist.getD s []).length ∧ (dist.getD s []).getD t 0 < radius := by
    intro t
    simp [neighborhood, flatnonzero_lt, List.mem_filter, List.mem_range]
  refine ⟨hmem, (hmem s).mpr ⟨hlen, ?_⟩⟩
  rw [hdiag]
  exact hpos

/-- C5 witness: for the 2-series distance matrix `[[0,1],[1,0]]` and radius
`3/2`, series 0 is in its own neighborhood. -/
theorem neighborhood_members_witness :
    0 ∈ neighborhood [[(0 : ℚ), 1], [1, 0]] 0 (3 / 2) :=
  (neighborhood_members [[(0 : ℚ), 1], [1, 0]] 0 (3 / 2) (by decide) (by decide)
    (by norm_num)).2

/-- C6: with exactly one flattened feature, `compute_dsm` and
`compute_dsm_cv` raise a `ValueError` for the metrics `correlation` and
`cosine`, with a message that suggests the alternative metric
`sqeuclidean`; with metric `sqeuclidean` both functions succeed on every
input. -/
theorem single_feature_rejection (data : List (List ℚ))
    (folds : List (List (List ℚ))) (metric : String)
    (d : List ℚ → List ℚ → ℚ)
    (hm : metric = "correlation" ∨ metric = "cosine")
    (h1 : n_features data = 1) (h2 : n_features (folds.headD []) = 1) :
    compute_dsm data metric d = .error (.valueError singleFeatureMsg)
    ∧ compute_dsm_cv folds metric d = .error (.valueError singleFeatureMsg)
    ∧ containsSub singleFeatureMsg.toList "sqeuclidean".toList = true
    ∧ isOkE (compute_dsm data "sqeuclidean" d) = true
    ∧ isOkE (compute_dsm_cv folds "sqeuclidean" d) = true := by
  have hsq : ∀ X : List (List ℚ),
      ¬ (n_features X = 1 ∧ (("sqeuclidean" : String) = "correlation"
        ∨ ("sqeuclidean" : String) = "cosine")) := by
    rintro X ⟨-, h | h⟩ <;> simp at h
  refine ⟨?_, ?_, by decide, ?_, ?_⟩
  · unfold compute_dsm
    rw [if_pos ⟨h1, hm⟩]
  · unfold compute_dsm_cv
    rw [if_pos ⟨h2, hm⟩]
  · unfold compute_dsm
    rw [if_neg (hsq data)]
    rfl
  · unfold compute_dsm_cv
    rw [if_neg (hsq (folds.headD []))]
    rfl

/-- C6 witness: one feature per item, metric `correlation` errors and
`sqeuclidean` succeeds, for both computers. -/
theorem single_feature_rejection_witness :
    compute_dsm [[(3 : ℚ)], [4]] "correlation" sqeuclidean
      = .error (.valueError singleFeatureMsg)
    ∧ isOkE (compute_dsm_cv [[[(1 : ℚ)], [2]], [[1], [2]]] "sqeuclidean" sqeuclidean)
      = true := by
  have h := single_feature_rejection [[(3 : ℚ)], [4]] [[[(1 : ℚ)], [2]], [[1], [2]]]
    "correlation" sqeuclidean (Or.inl rfl) (by decide) (by decide)
  exact ⟨h.1, h.2.2.2.2⟩

/-- C3 counterexample: `dsm_temp` called with its default `dist_params=None`
on 1 item, 1 row, 4 time samples and `temporal_radius = 3` has an empty
center sequence, so the yielded sequence is empty and no `TypeError` is ever
raised, contradicting the claim that every such call raises `TypeError` on
the first pull. -/
theorem dsm_temp_defaults_no_type_error :
    dsm_temp_run [[[(1 : ℚ), 2, 3, 4]]] 3 "sqeuclidean" sqeuclidean none = .ok []
    ∧ isTypeErr (dsm_temp_run [[[(1 : ℚ), 2, 3, 4]]] 3 "sqeuclidean" sqeuclidean none)
      = false :=
  ⟨rfl, rfl⟩

/-- C3 (amended): with `dist_params` left at its default `None`, requesting
the first element of the yielded sequence raises `TypeError` (from expanding
`**None`) whenever at least one searchlight position exists, and no DSM is
ever produced; when no position exists, `dsm_spat` and `dsm_temp` yield an
empty sequence without error (still producing no DSM). -/
theorem dist_params_none_behavior :
    (∀ (data : List (List (List ℚ))) (dist : List (List ℚ)) (rs : ℚ)
        (metric : String) (d : List ℚ → List ℚ → ℚ), dist ≠ [] →
        dsm_spat_run data dist rs metric d none = .error (.typeError kwargsNoneMsg))
    ∧ (∀ (data : List (List (List ℚ))) (rt : ℤ) (metric : String)
        (d : List ℚ → List ℚ → ℚ),
        get_time_patch_centers (((data.headD []).headD []).length : ℤ) rt ≠ [] →
        dsm_temp_run data rt metric d none = .error (.typeError kwargsNoneMsg))
    ∧ (∀ (data : List (List (List ℚ))) (dist : List (List ℚ)) (rs : ℚ) (rt : ℤ)
        (metric : String) (d : List ℚ → List ℚ → ℚ),
        spattemp_pairs (data.headD []).length
          (get_time_patch_centers (((data.headD []).headD []).length : ℤ) rt) ≠ [] →
        dsm_spattemp_run data dist rs rt metric d none
          = .error (.typeError kwargsNoneMsg))
    ∧ (∀ (data : List (List (List ℚ))) (rs : ℚ) (metric : String)
        (d : List ℚ → List ℚ → ℚ),
        dsm_spat_run data [] rs metric d none = .ok [])
    ∧ (∀ (data : List (List (List ℚ))) (rt : ℤ) (metric : String)
        (d : List ℚ → List ℚ → ℚ),
        get_time_patch_centers (((data.headD []).headD []).length : ℤ) rt = [] →
        dsm_temp_run data rt metric d none = .ok []) := by
  refine ⟨?_, ?_, ?_, ?_, ?_⟩
  · intro data dist rs metric d hne
    cases dist with
    | nil => exact absurd rfl hne
    | cons row rest =>
      simp only [dsm_spat_run, List.length_cons, List.range_succ_eq_map,
        List.map_cons]
      rfl
  · intro data rt metric d hne
    obtain ⟨c, cs, hc⟩ := List.exists_cons_of_ne_nil hne
    simp only [dsm_temp_run, hc, List.map_cons]
    rfl
  · intro data dist rs rt metric d hne
    obtain ⟨p, ps, hp⟩ := List.exists_cons_of_ne_nil hne
    simp only [dsm_spattemp_run, hp, List.map_cons]
    rfl
  · intro data rs metric d
    rfl
  · intro data rt metric d hc
    simp only [dsm_temp_run, hc, List.map_nil]
    rfl

/-- C3 witness: concrete instantiations of each amended conjunct. -/
theorem dist_params_none_behavior_witness :
    dsm_spat_run [[[(1 : ℚ)], [2]], [[3], [4]]] [[0, 1], [1, 0]] (3 / 2)
      "sqeuclidean" sqeuclidean none = .error (.typeError kwargsNoneMsg)
    ∧ dsm_temp_run stData 1 "sqeuclidean" sqeuclidean none
      = .error (.typeError kwargsNoneMsg)
    ∧ dsm_spattemp_run stData stDist 2 1 "sqeuclidean" sqeuclidean none
      = .error (.typeError kwargsNoneMsg)
    ∧ dsm_spat_run stData [] 2 "sqeuclidean" sqeuclidean none = .ok []
    ∧ dsm_temp_run [[[(1 : ℚ), 2, 3, 4]]] 5 "sqeuclidean" sqeuclidean none = .ok [] := by
  obtain ⟨h1, h2, h3, h4, h5⟩ := dist_params_none_behavior
  exact ⟨h1 _ _ _ _ _ (by decide), h2 stData 1 _ _ (by decide),
    h3 stData stDist 2 1 _ _ (by decide), h4 stData 2 _ _,
    h5 _ 5 _ _ (by decide)⟩

/-- C2: on 2 series and 4 samples with `temporal_radius = 1` there are
3 valid centers and 6 (series, center) patches, enumerated series-major /
time-minor; yet `dsm_spattemp` ends with `yield next(dsm_gen)` and so yields
exactly one DSM instead of the 6 promised by its docstring ("a DSM for each
spatio-temporal patch") and by the spec. -/
theorem dsm_spattemp_yields_single :
    spattemp_pairs (stData.headD []).length
        (get_time_patch_centers (((stData.headD []).headD []).length : ℤ) 1)
      = [(0, 1), (0, 2), (0, 3), (1, 1), (1, 2), (1, 3)]
    ∧ (spattemp_pairs 2 (get_time_patch_centers 4 1)).length = 6
    ∧ dsm_spattemp_run stData stDist 2 1 "sqeuclidean" sqeuclidean (some ())
      = .ok [[]] :=
  ⟨by decide, by decide, rfl⟩

theorem map_mul_succ (c : ℚ) (r : List ℚ) :
    List.zipWith (· + ·) (r.map (fun x => c * x)) r = r.map (fun x => (c + 1) * x) := by
  rw [List.zipWith_map_left, List.zipWith_same]
  exact List.map_congr_left (fun a _ => by ring)

theorem matAdd_scalar (c : ℚ) (A : List (List ℚ)) :
    matAdd (A.map (fun row => row.map (fun x => c * x))) A
      = A.map (fun row => row.map (fun x => (c + 1) * x)) := by
  unfold matAdd
  rw [List.zipWith_map_left, List.zipWith_same]
  exact List.map_congr_left (fun row _ => map_mul_succ c row)

theorem foldl_matAdd_replicate (A : List (List ℚ)) :
    ∀ (k : ℕ) (c : ℚ),
      List.foldl matAdd (A.map (fun row => row.map (fun x => c * x)))
        (List.replicate k A)
      = A.map (fun row => row.map (fun x => (c + (k : ℚ)) * x))
  | 0, c => by simp
  | k + 1, c => by
    rw [List.replicate_succ, List.foldl_cons, matAdd_scalar,
      foldl_matAdd_replicate A k (c + 1)]
    refine List.map_congr_left (fun row _ => List.map_congr_left (fun x _ => ?_))
    push_cast
    ring

theorem sumFolds_replicate (A : List (List ℚ)) (F : ℕ) (hF : 1 ≤ F) :
    sumFolds (List.replicate F A)
      = A.map (fun row => row.map (fun x => (F : ℚ) * x)) := by
  obtain ⟨m, rfl⟩ : ∃ m, F = m + 1 := ⟨F - 1, by omega⟩
  rw [List.replicate_succ]
  show List.foldl matAdd A (List.replicate m A) = _
  have h0 : A = A.map (fun row => row.map (fun x => (1 : ℚ) * x)) := by simp
  nth_rewrite 1 [h0]
  rw [foldl_matAdd_replicate A m 1]
  refine List.map_congr_left (fun row _ => List.map_congr_left (fun x _ => ?_))
  push_cast
  ring

theorem meanFolds_replicate (A : List (List ℚ)) (F : ℕ) (hF : F ≠ 0) :
    meanFolds (List.replicate F A) = A := by
  unfold meanFolds
  rw [sumFolds_replicate A F (by omega), List.length_replicate, List.map_map]
  have hc : (F : ℚ) ≠ 0 := Nat.cast_ne_zero.mpr hF
  conv_rhs => rw [← List.map_id A]
  refine List.map_congr_left (fun row _ => ?_)
  show (row.map (fun x => (F : ℚ) * x)).map (fun x => x / (F : ℚ)) = row
  rw [List.map_map]
  conv_rhs => rw [← List.map_id row]
  refine List.map_congr_left (fun x _ => ?_)
  show ((F : ℚ) * x) / (F : ℚ) = x
  exact mul_div_cancel_left₀ x hc

theorem trainEstimate_self (A : List (List ℚ)) (F : ℕ) :
    trainEstimate A A F = A := by
  unfold trainEstimate
  rw [List.zipWith_same]
  have hrow : ∀ row : List ℚ,
      List.zipWith (fun mi ti => mi - (mi - ti) / ((F : ℚ) - 1)) row row = row := by
    intro row
    rw [List.zipWith_same]
    simp
  simp only [hrow, List.map_id']

theorem cdistUpper_self (d : List ℚ → List ℚ → ℚ) :
    ∀ A : List (List ℚ), cdistUpper d A A = pdist d A
  | [] => rfl
  | x :: xs => by
    show xs.map (d x) ++ cdistUpper d xs xs = xs.map (d x) ++ pdist d xs
    rw [cdistUpper_self d xs]

theorem two_mul_pdist_length (d : List ℚ → List ℚ → ℚ) :
    ∀ A : List (List ℚ), 2 * (pdist d A).length = A.length * (A.length - 1)
  | [] => rfl
  | x :: xs => by
    have ih := two_mul_pdist_length d xs
    have hx : xs.length * (xs.length - 1) + 2 * xs.length
        = (xs.length + 1) * xs.length := by
      cases h : xs.length with
      | zero => simp
      | succ m =>
        simp only [Nat.succ_sub_one]
        ring
    simp only [pdist, List.length_append, List.length_map, List.length_cons,
      Nat.add_sub_cancel]
    linarith

theorem pdist_length (d : List ℚ → List ℚ → ℚ) (A : List (List ℚ)) :
    (pdist d A).length = A.length * (A.length - 1) / 2 := by
  have h := two_mul_pdist_length d A
  revert h
  generalize A.length * (A.length - 1) = X
  intro h
  omega

theorem getD_replicate_of_lt {α : Type*} {A : α} {F k : ℕ} (h : k < F) (dflt : α) :
    (List.replicate F A).getD k dflt = A := by
  rw [List.getD_eq_getElem?_getD, List.getElem?_replicate_of_lt h]
  rfl

theorem foldl_range_congr {α : Type*} :
    ∀ (F : ℕ) (f g : α → ℕ → α) (z : α),
      (∀ acc k, k < F → f acc k = g acc k) →
      (List.range F).foldl f z = (List.range F).foldl g z
  | 0, f, g, z, h => rfl
  | F + 1, f, g, z, h => by
    rw [List.range_succ, List.foldl_append, List.foldl_append,
      foldl_range_congr F f g z (fun acc k hk => h acc k (by omega))]
    simp only [List.foldl_cons, List.foldl_nil]
    exact h _ F (by omega)

theorem foldl_addVec_ignore (v : List ℚ) :
    ∀ (l : List ℕ) (c : ℚ),
      List.foldl (fun acc (_ : ℕ) => addVec acc v) (v.map (fun x => c * x)) l
        = v.map (fun x => (c + (l.length : ℚ)) * x)
  | [], c => by simp
  | k :: ks, c => by
    rw [List.foldl_cons,
      show addVec (v.map (fun x => c * x)) v = v.map (fun x => (c + 1) * x)
        from map_mul_succ c v,
      foldl_addVec_ignore v ks (c + 1)]
    refine List.map_congr_left (fun x _ => ?_)
    simp only [List.length_cons]
    push_cast
    ring

theorem replicate_zero_eq_map (v : List ℚ) :
    List.replicate v.length (0 : ℚ) = v.map (fun x => (0 : ℚ) * x) := by
  rw [show (fun x : ℚ => (0 : ℚ) * x) = (fun _ : ℚ => (0 : ℚ))
      from funext (fun x => zero_mul x),
    List.map_const']
/-- C7: when all folds are identical (fold tensor `replicate F A`, `2 ≤ F ≤ 5`),
`compute_dsm_cv` returns exactly the DSM that `compute_dsm` returns on the
fold-mean-collapsed item array, for any metric name and distance function. -/
theorem cv_fold_count_invariance (A : List (List ℚ)) (F : ℕ) (metric : String)
    (d : List ℚ → List ℚ → ℚ) (h2 : 2 ≤ F) (h5 : F ≤ 5) :
    compute_dsm_cv (List.replicate F A) metric d
      = compute_dsm (meanFolds (List.replicate F A)) metric d := by
  have hF0 : F ≠ 0 := by omega
  have hFQ : (F : ℚ) ≠ 0 := Nat.cast_ne_zero.mpr hF0
  have hmean : meanFolds (List.replicate F A) = A := meanFolds_replicate A F hF0
  have hHead : (List.replicate F A).headD [] = A := by
    obtain ⟨m, rfl⟩ : ∃ m, F = m + 1 := ⟨F - 1, by omega⟩
    rfl
  simp only [compute_dsm_cv, compute_dsm, hHead, hmean, List.length_replicate]
  by_cases hc : n_features A = 1 ∧ (metric = "correlation" ∨ metric = "cosine")
  · rw [if_pos hc, if_pos hc]
  · rw [if_neg hc, if_neg hc]
    congr 1
    rw [foldl_range_congr F _
      (fun acc (_ : ℕ) => addVec acc (cdistUpper d A A)) _
      (fun acc k hk => by rw [getD_replicate_of_lt hk, trainEstimate_self])]
    simp only [cdistUpper_self]
    rw [show A.length * (A.length - 1) / 2 = (pdist d A).length
        from (pdist_length d A).symm,
      replicate_zero_eq_map (pdist d A),
      foldl_addVec_ignore (pdist d A) (List.range F) 0]
    simp only [List.length_range, zero_add]
    rw [List.map_map]
    conv_rhs => rw [← List.map_id (pdist d A)]
    refine List.map_congr_left (fun x _ => ?_)
    show ((F : ℚ) * x) / (F : ℚ) = x
    exact mul_div_cancel_left₀ x hFQ

/-- C7 witness: two identical folds of a 2-item, 2-feature array. -/
theorem cv_fold_count_invariance_witness :
    2 ≤ 2 ∧ (2 : ℕ) ≤ 5
    ∧ compute_dsm_cv (List.replicate 2 [[(1 : ℚ), 2], [3, 4]]) "sqeuclidean" sqeuclidean
      = compute_dsm (meanFolds (List.replicate 2 [[(1 : ℚ), 2], [3, 4]]))
          "sqeuclidean" sqeuclidean :=
  ⟨le_refl 2, by omega,
    cv_fold_count_invariance [[(1 : ℚ), 2], [3, 4]] 2 "sqeuclidean" sqeuclidean
      (le_refl 2) (by omega)⟩
theorem getD_append_left_of_lt {l l' : List Val} {i : ℕ} (h : i < l.length)
    (dflt : Val) : (l ++ l').getD i dflt = l.getD i dflt :=
  List.getD_append l l' dflt i h

theorem getD_set_ne {l : List Val} {i j : ℕ} (h : i ≠ j) (v dflt : Val) :
    (l.set i v).getD j dflt = l.getD j dflt := by
  rw [List.getD_eq_getElem?_getD, List.getD_eq_getElem?_getD,
    List.getElem?_set_ne h]

theorem foldl_set_getD_ne {dsmId id : ℕ} (hne : id ≠ dsmId)
    (g : Heap → ℕ → Val) (dflt : Val) :
    ∀ (l : List ℕ) (h0 : Heap),
      ((l.foldl (fun hh k => hh.set dsmId (g hh k)) h0).getD id dflt)
        = h0.getD id dflt
  | [], h0 => rfl
  | k :: ks, h0 => by
    rw [List.foldl_cons, foldl_set_getD_ne hne g dflt ks _,
      getD_set_ne (fun h => hne h.symm)]

/-- C10: none of the five DSM computations writes to a caller-supplied
buffer: in the heap model, every heap position allocated before the call
holds the same array afterwards.  `compute_dsm` and the three generators
only allocate (fold tensor, patch copies, result vectors); the single
in-place statement of the module, `dsm += ...` in `compute_dsm_cv`, stores
into the `np.zeros` buffer allocated by the call itself. -/
theorem no_caller_buffer_mutation (h : Heap) (dataId distId foldsId id : ℕ)
    (rs : ℚ) (rt : ℤ) (metric : String) (d : List ℚ → List ℚ → ℚ)
    (params : Option Unit) (hid : id < h.length) :
    (compute_dsm_heap h dataId metric d).1.getD id (.a1 [])
      = h.getD id (.a1 [])
    ∧ (compute_dsm_cv_heap h foldsId metric d).1.getD id (.a1 [])
      = h.getD id (.a1 [])
    ∧ (dsm_spat_heap h dataId distId rs metric d params).1.getD id (.a1 [])
      = h.getD id (.a1 [])
    ∧ (dsm_temp_heap h dataId rt metric d params).1.getD id (.a1 [])
      = h.getD id (.a1 [])
    ∧ (dsm_spattemp_heap h dataId distId rs rt metric d params).1.getD id (.a1 [])
      = h.getD id (.a1 []) := by
  refine ⟨rfl, ?_, ?_, ?_, ?_⟩
  · simp only [compute_dsm_cv_heap]
    split
    · rfl
    · show (List.foldl _ (h ++ [_]) _).getD id (Val.a1 []) = _
      rw [foldl_set_getD_ne (by omega) _ _ _ _,
        getD_append_left_of_lt hid]
  · show ((h ++ [_] ++ _).getD id (Val.a1 [])) = _
    rw [getD_append_left_of_lt (by simpa using Nat.lt_succ_of_lt hid),
      getD_append_left_of_lt hid]
  · show ((h ++ [_] ++ _).getD id (Val.a1 [])) = _
    rw [getD_append_left_of_lt (by simpa using Nat.lt_succ_of_lt hid),
      getD_append_left_of_lt hid]
  · show ((h ++ [_] ++ _).getD id (Val.a1 [])) = _
    rw [getD_append_left_of_lt (by simpa using Nat.lt_succ_of_lt hid),
      getD_append_left_of_lt hid]
theorem getD_set_self {l : List Val} {i : ℕ} (h : i < l.length) (v dflt : Val) :
    (l.set i v).getD i dflt = v := by
  rw [List.getD_eq_getElem?_getD, List.getElem?_set_self h]
  rfl

theorem getD_append_right_self (l : List Val) (v dflt : Val) :
    (l ++ [v]).getD l.length dflt = v := by
  rw [List.getD_eq_getElem?_getD, List.getElem?_append_right (le_refl _)]
  simp

theorem foldl_set_getD_self (dsmId : ℕ) (w : ℕ → List ℚ) :
    ∀ (l : List ℕ) (h0 : Heap) (acc : List ℚ), dsmId < h0.length →
      h0.getD dsmId (.a1 []) = .a1 acc →
      ((l.foldl (fun hh k =>
          hh.set dsmId (Val.a1 (addVec (getA1 (hh.getD dsmId (.a1 []))) (w k))))
        h0).getD dsmId (.a1 []))
        = .a1 (l.foldl (fun a k => addVec a (w k)) acc)
  | [], _, _, _, hacc => hacc
  | k :: ks, h0, acc, hlt, hacc => by
    rw [List.foldl_cons, List.foldl_cons]
    refine foldl_set_getD_self dsmId w ks _ (addVec acc (w k)) ?_ ?_
    · rw [List.length_set]
      exact hlt
    · rw [getD_set_self hlt, hacc]
      rfl

/-- The heap program for `compute_dsm_cv` returns the same result as the pure
function: the in-place `+=` accumulation on the fresh `np.zeros` buffer
computes the same condensed vector. -/
theorem compute_dsm_cv_heap_correct (h : Heap) (foldsId : ℕ) (metric : String)
    (d : List ℚ → List ℚ → ℚ) :
    (compute_dsm_cv_heap h foldsId metric d).2
      = compute_dsm_cv (getA3 (h.getD foldsId (.a1 []))) metric d := by
  simp only [compute_dsm_cv_heap, compute_dsm_cv]
  by_cases hc : n_features ((getA3 (h.getD foldsId (.a1 []))).headD []) = 1
      ∧ (metric = "correlation" ∨ metric = "cosine")
  · rw [if_pos hc, if_pos hc]
  · rw [if_neg hc, if_neg hc]
    rw [foldl_set_getD_self h.length _ _ _ _ (by simp) (getD_append_right_self h _ _)]
    rfl

/-- C10 witness: a concrete two-buffer heap (item array and distance matrix);
every computation leaves buffer 0 unchanged. -/
theorem no_caller_buffer_mutation_witness :
    (0 : ℕ) < ([Val.a3 stData, Val.a2 stDist] : Heap).length
    ∧ (compute_dsm_cv_heap [Val.a3 stData, Val.a2 stDist] 0
        "sqeuclidean" sqeuclidean).1.getD 0 (.a1 [])
      = ([Val.a3 stData, Val.a2 stDist] : Heap).getD 0 (.a1 [])
    ∧ (dsm_spattemp_heap [Val.a3 stData, Val.a2 stDist] 0 1 2 1
        "sqeuclidean" sqeuclidean (some ())).1.getD 0 (.a1 [])
      = ([Val.a3 stData, Val.a2 stDist] : Heap).getD 0 (.a1 []) := by
  have h := no_caller_buffer_mutation [Val.a3 stData, Val.a2 stDist] 0 1 0 0 2 1
    "sqeuclidean" sqeuclidean (some ()) (by decide)
  exact ⟨by decide, h.2.1, h.2.2.2.2⟩
